import Mathlib

/-!
Verification development for the portfolio contact-form backend
(`app.py`).  The Python source is shallowly embedded below:

* JSON values (`JVal`) model the payloads Flask hands to the handler.
* `validate_email` embeds the regular-expression check
  `re.match(pattern, email) is not None` as an executable backtracking
  matcher, including the Python semantics of the dollar anchor, which
  also matches just before a single trailing newline.
* `sanitize_input` embeds the `str.strip()`-based sanitizer.
* `contact` embeds the request handler: required-field check,
  sanitization, non-empty check, email check, message composition and
  SMTP delivery, with the surrounding try/except that converts any
  raised exception into a 500 response.
* The SMTP session is modelled by a `Relay` stub describing which step
  fails, and a `DeliveryTrace` recording connection attempts, session
  open/close events and the transmitted messages, so that resource and
  at-most-once properties can be stated.
-/

/-- Whitespace as stripped by the Python `str.strip()` method
(the Unicode whitespace property, per CPython). -/
def isPySpace (c : Char) : Bool :=
  let n := c.toNat
  n = 0x20 || (0x9 ≤ n && n ≤ 0xd) || (0x1c ≤ n && n ≤ 0x1f) ||
  n = 0x85 || n = 0xa0 || n = 0x1680 || (0x2000 ≤ n && n ≤ 0x200a) ||
  n = 0x2028 || n = 0x2029 || n = 0x202f || n = 0x205f || n = 0x3000

/-- Embedding of the Python `str.strip()` method: drop leading and
trailing whitespace characters. -/
def pyStrip (s : String) : String :=
  String.mk (((s.data.dropWhile isPySpace).reverse.dropWhile isPySpace).reverse)

/-- JSON values, as produced by `request.get_json()`. -/
inductive JVal where
  | str (s : String)
  | num (n : Int)
  | bool (b : Bool)
  | null
  | arr (xs : List JVal)
  | obj (fields : List (String × JVal))

/-- Embedding of `sanitize_input` from `app.py`: returns the stripped
string for a string input and the empty string for any non-string
input. -/
def sanitize_input (v : JVal) : String :=
  match v with
  | .str s => pyStrip s
  | _ => ""

/-! ## Email validation

The source checks
`re.match(r^[a-zA-Z0-9._%+-]+@[a-zA-Z0-9.-]+\.[a-zA-Z]..2,..$, email)`.
The matcher below follows the regex literally.  `Char.isAlpha` and
`Char.isDigit` are the ASCII classes, exactly the character ranges of
the pattern.  The dollar anchor of a Python pattern (without MULTILINE)
matches at the end of the string or just before a trailing newline;
`tldTail` encodes this. -/

/-- Character class of the local part: `a-zA-Z0-9._%+-`. -/
def isLocalChar (c : Char) : Bool :=
  c.isAlpha || c.isDigit || c == '.' || c == '_' || c == '%' || c == '+' || c == '-'

/-- Character class of the domain part: `a-zA-Z0-9.-`. -/
def isDomainChar (c : Char) : Bool :=
  c.isAlpha || c.isDigit || c == '.' || c == '-'

/-- Rest of the TLD after its first two letters: zero or more ASCII
letters followed by the dollar anchor (end of string, or a single
trailing newline — the Python dollar semantics). -/
def tldTail : List Char → Bool
  | [] => true
  | c :: cs => (c == '\n' && cs.isEmpty) || (c.isAlpha && tldTail cs)

/-- The TLD: at least two ASCII letters, then the dollar anchor. -/
def tldMatch : List Char → Bool
  | a :: b :: cs => a.isAlpha && b.isAlpha && tldTail cs
  | _ => false

/-- A literal dot followed by the TLD. -/
def dotTld : List Char → Bool
  | [] => false
  | c :: cs => c == '.' && tldMatch cs

/-- One or more characters satisfying `p`, then a continuation `k`
(backtracking plus-closure, as a regex engine would search). -/
def plusThen (p : Char → Bool) (k : List Char → Bool) : List Char → Bool
  | [] => false
  | c :: cs => p c && (k cs || plusThen p k cs)

/-- The part after the at sign: one or more domain characters, a dot,
and the TLD. -/
def afterAt (cs : List Char) : Bool :=
  plusThen isDomainChar dotTld cs

/-- A literal at sign followed by the domain. -/
def atDomain : List Char → Bool
  | [] => false
  | c :: cs => c == '@' && afterAt cs

/-- The full pattern: one or more local characters, at sign, domain. -/
def matchEmail : List Char → Bool :=
  plusThen isLocalChar atDomain

/-- Embedding of `validate_email` from `app.py`. -/
def validate_email (s : String) : Bool :=
  matchEmail s.data

/-! ## The contact handler -/

/-- A raised Python exception: its type name and message, as used by
the except clause to build the 500 response. -/
structure PyExc where
  name : String
  msg : String

/-- Process configuration read from the environment at startup. -/
structure Config where
  SMTP_SERVER : String
  SMTP_PORT : Nat
  SENDER_EMAIL : String
  EMAIL_PASSWORD : String

/-- The outbound MIME message: From, To and Subject headers and the
plain-text body. -/
structure EmailMsg where
  From : String
  To : String
  Subject : String
  body : String

/-- The f-string body of the outbound email, with the timestamp
injected as a parameter. -/
def emailBody (name email subject message ts : String) : String :=
  "\n        New contact from portfolio website:\n\n        Name: " ++ name ++
  "\n        Email: " ++ email ++
  "\n        Subject: " ++ subject ++
  "\n\n        Message:\n        " ++ message ++
  "\n\n        Sent at: " ++ ts ++ "\n        "

/-- Stub behaviour of the SMTP relay: which step of
connect / starttls / login / send raises, if any. -/
structure Relay where
  connectErr : Option PyExc
  starttlsErr : Option PyExc
  loginErr : Option PyExc
  sendErr : Option PyExc

/-- Observable trace of the delivery step: how many times a connection
was attempted, how many sessions were opened and closed, and the list
of transmitted messages. -/
structure DeliveryTrace where
  connectAttempts : Nat
  opened : Nat
  closed : Nat
  sent : List EmailMsg

/-- Trace of a call that never reached the delivery step. -/
def emptyTrace : DeliveryTrace :=
  { connectAttempts := 0, opened := 0, closed := 0, sent := [] }

/-- Embedding of the with-block
`with smtplib.SMTP(...) as server: starttls; login; send_message`.
If the SMTP constructor raises, no session exists and nothing is
closed.  Once the session is open, the with statement closes it on
every exit of the block, normal or exceptional; the body runs
starttls, login and send in order and stops at the first raised
exception. -/
def deliver (r : Relay) (m : EmailMsg) : Except PyExc Unit × DeliveryTrace :=
  match r.connectErr with
  | some e => (.error e, { connectAttempts := 1, opened := 0, closed := 0, sent := [] })
  | none =>
    let bodyRun : Except PyExc Unit × List EmailMsg :=
      match r.starttlsErr with
      | some e => (.error e, [])
      | none =>
        match r.loginErr with
        | some e => (.error e, [])
        | none =>
          match r.sendErr with
          | some e => (.error e, [])
          | none => (.ok (), [m])
    (bodyRun.1, { connectAttempts := 1, opened := 1, closed := 1, sent := bodyRun.2 })

/-- Python membership test `field in data` on a JSON value: key lookup
for a dict, element equality for a list, substring test for a string,
and a TypeError for null, numbers and booleans. -/
def pyContains (data : JVal) (field : String) : Except PyExc Bool :=
  match data with
  | .obj kvs => .ok (kvs.lookup field).isSome
  | .arr xs => .ok (xs.any (fun v => match v with | .str s => s == field | _ => false))
  | .str s => .ok (isSubstr field.data s.data)
  | .null => .error { name := "TypeError", msg := "argument of type NoneType is not iterable" }
  | .num _ => .error { name := "TypeError", msg := "argument of type int is not iterable" }
  | .bool _ => .error { name := "TypeError", msg := "argument of type bool is not iterable" }
where
  isSubstr (needle : List Char) : List Char → Bool
    | [] => needle.isEmpty
    | c :: cs => needle.isPrefixOf (c :: cs) || isSubstr needle cs

/-- The generator expression
`all(field in data for field in required_fields)`: stop at the first
field not contained, propagate a raised exception. -/
def allContains (data : JVal) : List String → Except PyExc Bool
  | [] => .ok true
  | f :: fs =>
    match pyContains data f with
    | .error e => .error e
    | .ok b => if b then allContains data fs else .ok false

/-- The four required field names, in source order. -/
def required_fields : List String :=
  ["name", "email", "subject", "message"]

/-- Python subscription `data[k]` with a string key: dict lookup
(KeyError when absent), TypeError for every other JSON value. -/
def pyGetItem (data : JVal) (k : String) : Except PyExc JVal :=
  match data with
  | .obj kvs =>
    match kvs.lookup k with
    | some v => .ok v
    | none => .error { name := "KeyError", msg := k }
  | .arr _ => .error { name := "TypeError", msg := "list indices must be integers or slices, not str" }
  | .str _ => .error { name := "TypeError", msg := "string indices must be integers" }
  | _ => .error { name := "TypeError", msg := "object is not subscriptable" }

/-- The four subscriptions `data[name]` .. `data[message]`, in source
order, stopping at the first raised exception. -/
def getFields (data : JVal) : Except PyExc (JVal × JVal × JVal × JVal) :=
  match pyGetItem data "name" with
  | .error e => .error e
  | .ok n =>
    match pyGetItem data "email" with
    | .error e => .error e
    | .ok em =>
      match pyGetItem data "subject" with
      | .error e => .error e
      | .ok s =>
        match pyGetItem data "message" with
        | .error e => .error e
        | .ok m => .ok (n, em, s, m)

/-- An HTTP-style response: the jsonify body (a JSON object, kept as a
key-value list) and the status code. -/
structure Response where
  body : List (String × JVal)
  status : Nat

/-- A 400 validation response with the given error text. -/
def resp400 (err : String) : Response :=
  { body := [("success", .bool false), ("error", .str err)], status := 400 }

/-- The 500 response built by the except clause from a raised
exception. -/
def resp500 (e : PyExc) : Response :=
  { body := [("success", .bool false),
             ("error", .str ("Error: " ++ e.name ++ " - " ++ e.msg))],
    status := 500 }

/-- The 200 success response. -/
def resp200 : Response :=
  { body := [("success", .bool true), ("message", .str "Email sent successfully")], status := 200 }

/-- The message-composition step (lines building `msg` in the
handler): self-addressed to the operator, prefixed subject, formatted
body.  The arguments are the already sanitized field values. -/
def composeMsg (cfg : Config) (now name email subject message : String) : EmailMsg :=
  { From := cfg.SENDER_EMAIL
    To := cfg.SENDER_EMAIL
    Subject := "Portfolio Contact: " ++ subject
    body := emailBody name email subject message now }

/-- The first exception the relay stub will raise during delivery, in
step order (connect, starttls, login, send), if any. -/
def relayFirstErr (r : Relay) : Option PyExc :=
  match r.connectErr with
  | some e => some e
  | none =>
    match r.starttlsErr with
    | some e => some e
    | none =>
      match r.loginErr with
      | some e => some e
      | none => r.sendErr

/-- Embedding of the `contact` handler.  `parsed` is the outcome of
`request.get_json()` (`.error` when it raised, e.g. BadRequest on a
body that is not valid JSON); `now` is the formatted timestamp.  The
local Python bindings name/email/subject/message are inlined as the
pure expressions they are bound to.  The result carries the response
together with the delivery trace of the call. -/
def contact (cfg : Config) (relay : Relay) (now : String)
    (parsed : Except PyExc JVal) : Response × DeliveryTrace :=
  match parsed with
  | .error e => (resp500 e, emptyTrace)
  | .ok data =>
    match allContains data required_fields with
    | .error e => (resp500 e, emptyTrace)
    | .ok false => (resp400 "Missing required fields", emptyTrace)
    | .ok true =>
      match getFields data with
      | .error e => (resp500 e, emptyTrace)
      | .ok (nv, ev, sv, mv) =>
        if sanitize_input nv == "" || sanitize_input ev == "" ||
            sanitize_input sv == "" || sanitize_input mv == "" then
          (resp400 "All fields must not be empty", emptyTrace)
        else if !validate_email (sanitize_input ev) then
          (resp400 "Invalid email format", emptyTrace)
        else
          match deliver relay (composeMsg cfg now (sanitize_input nv) (sanitize_input ev)
              (sanitize_input sv) (sanitize_input mv)) with
          | (.ok _, tr) => (resp200, tr)
          | (.error e, tr) => (resp500 e, tr)

/-- Configuration used by the end-to-end scenarios. -/
def cfgEx : Config :=
  { SMTP_SERVER := "smtp.gmail.com", SMTP_PORT := 587,
    SENDER_EMAIL := "operator@example.com", EMAIL_PASSWORD := "secret" }

/-- A relay stub on which every delivery step succeeds. -/
def relayOk : Relay :=
  { connectErr := none, starttlsErr := none, loginErr := none, sendErr := none }

/-- A relay stub whose authentication step rejects the credentials. -/
def relayAuthReject : Relay :=
  { connectErr := none, starttlsErr := none,
    loginErr := some { name := "SMTPAuthenticationError", msg := "bad credentials" },
    sendErr := none }

/-- The payload of end-to-end scenario 1. -/
def janePayload : JVal :=
  .obj [("name", .str "Jane"), ("email", .str "jane@example.com"),
        ("subject", .str "Hi"), ("message", .str "Hello there")]

/-! ## Spec-side definitions

These definitions follow the words of the specification (and of the
claims), to be compared with the embedded code.  `emailSpecStrict` is
the language of the pattern anchored at both ends with no extra
characters at all; `emailSpecPy` additionally lets the dollar anchor
match just before one trailing newline, which is what the Python regex
engine does. -/

/-- The claim reading of the email pattern: the entire string is
local-part, at sign, domain, dot, TLD — nothing before or after,
in particular no trailing newline. -/
def emailSpecStrict (s : String) : Prop :=
  ∃ l d t : List Char,
    l ≠ [] ∧ (∀ c ∈ l, isLocalChar c = true) ∧
    d ≠ [] ∧ (∀ c ∈ d, isDomainChar c = true) ∧
    2 ≤ t.length ∧ (∀ c ∈ t, c.isAlpha = true) ∧
    s.data = l ++ '@' :: (d ++ '.' :: t)

/-- The email pattern with the Python dollar semantics: the same
language, optionally followed by one trailing newline. -/
def emailSpecPy (s : String) : Prop :=
  ∃ l d t : List Char,
    l ≠ [] ∧ (∀ c ∈ l, isLocalChar c = true) ∧
    d ≠ [] ∧ (∀ c ∈ d, isDomainChar c = true) ∧
    2 ≤ t.length ∧ (∀ c ∈ t, c.isAlpha = true) ∧
    (s.data = l ++ '@' :: (d ++ '.' :: t) ∨
     s.data = l ++ '@' :: (d ++ '.' :: (t ++ ['\n'])))

/-- Two successive calls of the same function on the same argument,
used to state that validation has no hidden state. -/
def runTwice {α β : Type} (f : α → β) (x : α) : β × β :=
  (f x, f x)

/-! ## Characterization of the regex matcher -/

theorem plusThen_iff (p : Char → Bool) (k : List Char → Bool) (cs : List Char) :
    plusThen p k cs = true ↔
      ∃ xs ys, cs = xs ++ ys ∧ xs ≠ [] ∧ (∀ c ∈ xs, p c = true) ∧ k ys = true := by
  induction cs with
  | nil =>
    constructor
    · intro h; simp [plusThen] at h
    · rintro ⟨xs, ys, h, hne, -, -⟩
      cases xs with
      | nil => exact absurd rfl hne
      | cons a as => simp at h
  | cons c cs ih =>
    constructor
    · intro h
      simp only [plusThen, Bool.and_eq_true, Bool.or_eq_true] at h
      obtain ⟨hp, hk | hrec⟩ := h
      · exact ⟨[c], cs, rfl, by simp, by simpa using hp, hk⟩
      · obtain ⟨xs, ys, rfl, hne, hall, hky⟩ := ih.mp hrec
        refine ⟨c :: xs, ys, rfl, by simp, ?_, hky⟩
        intro x hx
        rcases List.mem_cons.mp hx with h1 | h2
        · subst h1; exact hp
        · exact hall x h2
    · rintro ⟨xs, ys, heq, hne, hall, hky⟩
      cases xs with
      | nil => exact absurd rfl hne
      | cons a as =>
        simp only [List.cons_append, List.cons.injEq] at heq
        obtain ⟨rfl, rfl⟩ := heq
        simp only [plusThen, Bool.and_eq_true, Bool.or_eq_true]
        refine ⟨hall c (by simp), ?_⟩
        cases as with
        | nil => left; simpa using hky
        | cons b bs =>
          right
          refine ih.mpr ⟨b :: bs, ys, rfl, by simp, ?_, hky⟩
          intro x hx
          exact hall x (by simp [List.mem_cons.mp hx])

theorem tldTail_iff (cs : List Char) :
    tldTail cs = true ↔
      ∃ t, (cs = t ∨ cs = t ++ ['\n']) ∧ ∀ c ∈ t, c.isAlpha = true := by
  induction cs with
  | nil =>
    constructor
    · intro _; exact ⟨[], Or.inl rfl, by simp⟩
    · intro _; rfl
  | cons c cs ih =>
    simp only [tldTail, Bool.or_eq_true, Bool.and_eq_true]
    constructor
    · rintro (⟨hc, hcs⟩ | ⟨hc, ht⟩)
      · have hc' : c = '\n' := by simpa using hc
        have hcs' : cs = [] := by simpa using hcs
        subst hc'; subst hcs'
        exact ⟨[], Or.inr rfl, by simp⟩
      · obtain ⟨t, htO, hall⟩ := ih.mp ht
        refine ⟨c :: t, ?_, ?_⟩
        · rcases htO with rfl | rfl
          · exact Or.inl rfl
          · exact Or.inr (by simp)
        · intro x hx
          rcases List.mem_cons.mp hx with rfl | hx
          · exact hc
          · exact hall x hx
    · rintro ⟨t, htO | htO, hall⟩
      · subst htO
        right
        exact ⟨hall c (by simp), ih.mpr ⟨cs, Or.inl rfl, fun x hx => hall x (by simp [hx])⟩⟩
      · cases t with
        | nil =>
          simp only [List.nil_append, List.cons.injEq] at htO
          obtain ⟨rfl, rfl⟩ := htO
          left; exact ⟨by simp, by simp⟩
        | cons a as =>
          simp only [List.cons_append, List.cons.injEq] at htO
          obtain ⟨rfl, rfl⟩ := htO
          right
          refine ⟨hall c (by simp), ih.mpr ⟨as, Or.inr rfl, fun x hx => hall x (by simp [hx])⟩⟩

theorem tldMatch_iff (cs : List Char) :
    tldMatch cs = true ↔
      ∃ t, (cs = t ∨ cs = t ++ ['\n']) ∧ 2 ≤ t.length ∧ ∀ c ∈ t, c.isAlpha = true := by
  constructor
  · intro h
    cases cs with
    | nil => exact Bool.noConfusion h
    | cons a cs' =>
      cases cs' with
      | nil => exact Bool.noConfusion h
      | cons b rest =>
        simp only [tldMatch, Bool.and_eq_true] at h
        obtain ⟨⟨ha, hb⟩, ht⟩ := h
        obtain ⟨t, htO, hall⟩ := (tldTail_iff rest).mp ht
        refine ⟨a :: b :: t, ?_, by simp, ?_⟩
        · rcases htO with rfl | rfl
          · exact Or.inl rfl
          · exact Or.inr (by simp)
        · intro x hx
          rcases List.mem_cons.mp hx with rfl | hx
          · exact ha
          · rcases List.mem_cons.mp hx with rfl | hx
            · exact hb
            · exact hall x hx
  · rintro ⟨t, htO, hlen, hall⟩
    cases t with
    | nil => simp at hlen
    | cons a t' =>
      cases t' with
      | nil => simp at hlen
      | cons b ts =>
        have ha : a.isAlpha = true := hall a (by simp)
        have hb : b.isAlpha = true := hall b (by simp)
        have hts : ∀ c ∈ ts, c.isAlpha = true := fun x hx => hall x (by simp [hx])
        rcases htO with rfl | rfl
        · simp only [tldMatch, Bool.and_eq_true]
          exact ⟨⟨ha, hb⟩, (tldTail_iff ts).mpr ⟨ts, Or.inl rfl, hts⟩⟩
        · simp only [List.cons_append, tldMatch, Bool.and_eq_true]
          exact ⟨⟨ha, hb⟩, (tldTail_iff (ts ++ ['\n'])).mpr ⟨ts, Or.inr rfl, hts⟩⟩

theorem dotTld_iff (cs : List Char) :
    dotTld cs = true ↔
      ∃ t, (cs = '.' :: t ∨ cs = '.' :: (t ++ ['\n'])) ∧ 2 ≤ t.length ∧
        ∀ c ∈ t, c.isAlpha = true := by
  constructor
  · intro h
    cases cs with
    | nil => exact Bool.noConfusion h
    | cons c rest =>
      simp only [dotTld, Bool.and_eq_true] at h
      obtain ⟨hc, ht⟩ := h
      have hc' : c = '.' := by simpa using hc
      subst hc'
      obtain ⟨t, htO, hlen, hall⟩ := (tldMatch_iff rest).mp ht
      refine ⟨t, ?_, hlen, hall⟩
      rcases htO with rfl | rfl
      · exact Or.inl rfl
      · exact Or.inr rfl
  · rintro ⟨t, htO | htO, hlen, hall⟩ <;> subst htO <;>
      simp only [dotTld, Bool.and_eq_true] <;>
      refine ⟨by simp, ?_⟩
    · exact (tldMatch_iff t).mpr ⟨t, Or.inl rfl, hlen, hall⟩
    · exact (tldMatch_iff (t ++ ['\n'])).mpr ⟨t, Or.inr rfl, hlen, hall⟩

theorem afterAt_iff (cs : List Char) :
    afterAt cs = true ↔
      ∃ d t, d ≠ [] ∧ (∀ c ∈ d, isDomainChar c = true) ∧
        2 ≤ t.length ∧ (∀ c ∈ t, c.isAlpha = true) ∧
        (cs = d ++ '.' :: t ∨ cs = d ++ '.' :: (t ++ ['\n'])) := by
  unfold afterAt
  rw [plusThen_iff]
  constructor
  · rintro ⟨d, ys, rfl, hne, hall, hdot⟩
    obtain ⟨t, htO, hlen, halpha⟩ := (dotTld_iff ys).mp hdot
    refine ⟨d, t, hne, hall, hlen, halpha, ?_⟩
    rcases htO with rfl | rfl
    · exact Or.inl rfl
    · exact Or.inr rfl
  · rintro ⟨d, t, hne, hall, hlen, halpha, htO | htO⟩ <;> subst htO
    · exact ⟨d, '.' :: t, rfl, hne, hall,
        (dotTld_iff _).mpr ⟨t, Or.inl rfl, hlen, halpha⟩⟩
    · exact ⟨d, '.' :: (t ++ ['\n']), rfl, hne, hall,
        (dotTld_iff _).mpr ⟨t, Or.inr rfl, hlen, halpha⟩⟩

theorem atDomain_iff (cs : List Char) :
    atDomain cs = true ↔ ∃ rest, cs = '@' :: rest ∧ afterAt rest = true := by
  constructor
  · intro h
    cases cs with
    | nil => exact Bool.noConfusion h
    | cons c rest =>
      simp only [atDomain, Bool.and_eq_true] at h
      obtain ⟨hc, ha⟩ := h
      have hc' : c = '@' := by simpa using hc
      subst hc'
      exact ⟨rest, rfl, ha⟩
  · rintro ⟨rest, rfl, ha⟩
    simp only [atDomain, Bool.and_eq_true]
    exact ⟨by simp, ha⟩

theorem validate_email_iff (s : String) :
    validate_email s = true ↔ emailSpecPy s := by
  unfold validate_email matchEmail emailSpecPy
  rw [plusThen_iff]
  constructor
  · rintro ⟨l, ys, hs, hne, hall, hat⟩
    obtain ⟨rest, rfl, ha⟩ := (atDomain_iff ys).mp hat
    obtain ⟨d, t, hdne, hdall, hlen, halpha, htO | htO⟩ := (afterAt_iff rest).mp ha <;>
      subst htO
    · exact ⟨l, d, t, hne, hall, hdne, hdall, hlen, halpha, Or.inl hs⟩
    · exact ⟨l, d, t, hne, hall, hdne, hdall, hlen, halpha, Or.inr hs⟩
  · rintro ⟨l, d, t, hne, hall, hdne, hdall, hlen, halpha, htO | htO⟩
    · exact ⟨l, '@' :: (d ++ '.' :: t), htO, hne, hall,
        (atDomain_iff _).mpr ⟨_, rfl,
          (afterAt_iff _).mpr ⟨d, t, hdne, hdall, hlen, halpha, Or.inl rfl⟩⟩⟩
    · exact ⟨l, '@' :: (d ++ '.' :: (t ++ ['\n'])), htO, hne, hall,
        (atDomain_iff _).mpr ⟨_, rfl,
          (afterAt_iff _).mpr ⟨d, t, hdne, hdall, hlen, halpha, Or.inr rfl⟩⟩⟩

/-! ## Properties of the sanitizer -/

theorem head?_dropWhile_false (p : Char → Bool) (l : List Char) :
    ∀ c, (l.dropWhile p).head? = some c → p c = false := by
  intro c hc
  have h := List.head?_dropWhile_not p l
  rw [hc] at h
  exact h

theorem pyStrip_split (s : String) :
    s.data.dropWhile isPySpace
      = (pyStrip s).data
        ++ ((s.data.dropWhile isPySpace).reverse.takeWhile isPySpace).reverse := by
  have hsplit := List.takeWhile_append_dropWhile isPySpace
      (s.data.dropWhile isPySpace).reverse
  have h2 := congrArg List.reverse hsplit
  rw [List.reverse_append, List.reverse_reverse] at h2
  exact h2.symm

theorem pyStrip_decomp (s : String) :
    ∃ a b : List Char,
      s.data = a ++ ((pyStrip s).data ++ b) ∧
      (∀ c ∈ a, isPySpace c = true) ∧
      (∀ c ∈ b, isPySpace c = true) := by
  refine ⟨s.data.takeWhile isPySpace,
    ((s.data.dropWhile isPySpace).reverse.takeWhile isPySpace).reverse, ?_, ?_, ?_⟩
  · conv_lhs => rw [← List.takeWhile_append_dropWhile isPySpace s.data]
    exact congrArg (fun l => s.data.takeWhile isPySpace ++ l) (pyStrip_split s)
  · intro c hc
    exact List.mem_takeWhile_imp hc
  · intro c hc
    rw [List.mem_reverse] at hc
    exact List.mem_takeWhile_imp hc

theorem pyStrip_head (s : String) :
    ∀ c, (pyStrip s).data.head? = some c → isPySpace c = false := by
  intro c hc
  have hm : (s.data.dropWhile isPySpace).head? = some c := by
    rw [pyStrip_split s, List.head?_append, hc, Option.or_some]
  exact head?_dropWhile_false _ _ c hm

theorem pyStrip_last (s : String) :
    ∀ c, (pyStrip s).data.getLast? = some c → isPySpace c = false := by
  intro c hc
  have hc' : (((s.data.dropWhile isPySpace).reverse.dropWhile isPySpace).reverse).getLast?
      = some c := hc
  rw [List.getLast?_reverse] at hc'
  exact head?_dropWhile_false _ _ c hc'

/-! ## Handler-level lemmas -/

theorem allContains_obj (kvs : List (String × JVal)) (fs : List String) :
    allContains (.obj kvs) fs = .ok (fs.all (fun f => (kvs.lookup f).isSome)) := by
  induction fs with
  | nil => rfl
  | cons f fs ih =>
    simp only [allContains, pyContains, List.all_cons]
    cases h : (kvs.lookup f).isSome with
    | true => simp [ih]
    | false => simp

theorem getFields_obj (kvs : List (String × JVal)) (nv ev sv mv : JVal)
    (h1 : kvs.lookup "name" = some nv) (h2 : kvs.lookup "email" = some ev)
    (h3 : kvs.lookup "subject" = some sv) (h4 : kvs.lookup "message" = some mv) :
    getFields (.obj kvs) = .ok (nv, ev, sv, mv) := by
  simp only [getFields, pyGetItem, h1, h2, h3, h4]

theorem allContains_obj_present (kvs : List (String × JVal)) (nv ev sv mv : JVal)
    (h1 : kvs.lookup "name" = some nv) (h2 : kvs.lookup "email" = some ev)
    (h3 : kvs.lookup "subject" = some sv) (h4 : kvs.lookup "message" = some mv) :
    allContains (.obj kvs) required_fields = .ok true := by
  rw [allContains_obj]
  simp [required_fields, h1, h2, h3, h4]

theorem deliver_closed_eq_opened (r : Relay) (m : EmailMsg) :
    ((deliver r m).2).closed = ((deliver r m).2).opened := by
  obtain ⟨c, st, lo, se⟩ := r
  cases c <;> cases st <;> cases lo <;> cases se <;> rfl

theorem deliver_ok (r : Relay) (m : EmailMsg) (h : relayFirstErr r = none) :
    deliver r m = (.ok (), { connectAttempts := 1, opened := 1, closed := 1, sent := [m] }) := by
  obtain ⟨c, st, lo, se⟩ := r
  cases c <;> cases st <;> cases lo <;> cases se <;> simp_all [relayFirstErr, deliver]

theorem deliver_err (r : Relay) (m : EmailMsg) (e : PyExc) (h : relayFirstErr r = some e) :
    (deliver r m).1 = .error e ∧ (deliver r m).2.sent = [] ∧
      (deliver r m).2.connectAttempts = 1 := by
  obtain ⟨c, st, lo, se⟩ := r
  cases c <;> cases st <;> cases lo <;> cases se <;>
    simp_all [relayFirstErr, deliver]

theorem errString_ne_empty (e : PyExc) :
    ("Error: " ++ e.name ++ " - " ++ e.msg) ≠ "" := by
  intro h
  have h2 := congrArg String.length h
  simp only [String.length_append] at h2
  have e1 : "Error: ".length = 7 := rfl
  have e2 : " - ".length = 3 := rfl
  have e3 : "".length = 0 := rfl
  rw [e1, e2, e3] at h2
  omega

theorem contact_valid_path (cfg : Config) (relay : Relay) (now : String) (data : JVal)
    (nv ev sv mv : JVal)
    (h1 : allContains data required_fields = .ok true)
    (h2 : getFields data = .ok (nv, ev, sv, mv))
    (h3 : sanitize_input nv ≠ "") (h4 : sanitize_input ev ≠ "")
    (h5 : sanitize_input sv ≠ "") (h6 : sanitize_input mv ≠ "")
    (h7 : validate_email (sanitize_input ev) = true) :
    contact cfg relay now (.ok data)
      = match deliver relay (composeMsg cfg now (sanitize_input nv) (sanitize_input ev)
          (sanitize_input sv) (sanitize_input mv)) with
        | (.ok _, tr) => (resp200, tr)
        | (.error e, tr) => (resp500 e, tr) := by
  have b3 : (sanitize_input nv == "") = false := beq_eq_false_iff_ne.mpr h3
  have b4 : (sanitize_input ev == "") = false := beq_eq_false_iff_ne.mpr h4
  have b5 : (sanitize_input sv == "") = false := beq_eq_false_iff_ne.mpr h5
  have b6 : (sanitize_input mv == "") = false := beq_eq_false_iff_ne.mpr h6
  simp only [contact, h1, h2, b3, b4, b5, b6, h7, Bool.or_false, Bool.not_true,
    Bool.false_eq_true, if_false]

theorem contact_resp_cases (cfg : Config) (relay : Relay) (now : String)
    (parsed : Except PyExc JVal) :
    (∃ e, (contact cfg relay now parsed).1 = resp500 e)
    ∨ (contact cfg relay now parsed).1 = resp400 "Missing required fields"
    ∨ (contact cfg relay now parsed).1 = resp400 "All fields must not be empty"
    ∨ (contact cfg relay now parsed).1 = resp400 "Invalid email format"
    ∨ (contact cfg relay now parsed).1 = resp200 := by
  unfold contact
  split
  · exact Or.inl ⟨_, rfl⟩
  · split
    · exact Or.inl ⟨_, rfl⟩
    · exact Or.inr (Or.inl rfl)
    · split
      · exact Or.inl ⟨_, rfl⟩
      · split
        · exact Or.inr (Or.inr (Or.inl rfl))
        · split
          · exact Or.inr (Or.inr (Or.inr (Or.inl rfl)))
          · split
            · exact Or.inr (Or.inr (Or.inr (Or.inr rfl)))
            · exact Or.inl ⟨_, rfl⟩

theorem contact_trace_cases (cfg : Config) (relay : Relay) (now : String)
    (parsed : Except PyExc JVal) :
    (contact cfg relay now parsed).2 = emptyTrace
    ∨ ∃ m, (contact cfg relay now parsed).2 = (deliver relay m).2 := by
  unfold contact
  split
  · exact Or.inl rfl
  · split
    · exact Or.inl rfl
    · exact Or.inl rfl
    · split
      · exact Or.inl rfl
      · split
        · exact Or.inl rfl
        · split
          · exact Or.inl rfl
          · split
            · rename_i heq
              exact Or.inr ⟨_, by rw [heq]⟩
            · rename_i heq
              exact Or.inr ⟨_, by rw [heq]⟩

/-! ## Claims -/

/-- C2 counterexample: the Python dollar anchor also matches just
before a trailing newline, so validate_email accepts a string with a
trailing newline that the strictly anchored pattern language of the
claim does not contain. -/
theorem C2_counterexample :
    validate_email "a@b.co\n" = true ∧ ¬ emailSpecStrict "a@b.co\n" := by
  refine ⟨rfl, ?_⟩
  rintro ⟨l, d, t, -, -, -, -, hlen, halpha, hdata⟩
  have hne : t ≠ [] := by
    intro h0
    rw [h0] at hlen
    simp at hlen
  obtain ⟨x, hx⟩ : ∃ x, t.getLast? = some x := by
    cases ht : t.getLast? with
    | none => exact absurd (List.getLast?_eq_none_iff.mp ht) hne
    | some x => exact ⟨x, rfl⟩
  have hxalpha : x.isAlpha = true := halpha x (List.mem_of_getLast?_eq_some hx)
  have hre : l ++ '@' :: (d ++ '.' :: t) = (l ++ '@' :: d ++ ['.']) ++ t := by
    simp
  have hlast : ("a@b.co\n" : String).data.getLast? = some x := by
    rw [hdata, hre, List.getLast?_append, hx, Option.or_some]
  have hnl : ("a@b.co\n" : String).data.getLast? = some '\n' := rfl
  rw [hlast] at hnl
  have hxeq : x = '\n' := (Option.some.inj hnl)
  rw [hxeq] at hxalpha
  exact absurd hxalpha (by decide)

/-- C2 (amended): validate_email accepts exactly the strings of the
pattern language with the Python dollar semantics — the dollar anchor
matches at the end of the string or just before one trailing newline,
so a single trailing newline is also accepted; the spec examples
behave as stated. -/
theorem C2_amended_email_iff :
    (∀ s : String, validate_email s = true ↔ emailSpecPy s)
    ∧ validate_email "not-an-email" = false
    ∧ validate_email "a@b" = false
    ∧ validate_email "a@b.c" = false
    ∧ validate_email "a@b.co" = true
    ∧ validate_email "a@b.co\n" = true :=
  ⟨validate_email_iff, rfl, rfl, rfl, rfl, rfl⟩

/-- Witness for C2: the amended equivalence applied at a concrete
accepted address. -/
theorem C2_amended_email_iff_witness : emailSpecPy "a@b.co" :=
  (C2_amended_email_iff.1 "a@b.co").mp rfl

/-- C6: sanitize_input trims surrounding whitespace of a string input
(the result is an inner segment of the input, surrounded by whitespace
only, and itself neither starts nor ends with whitespace), returns the
empty string for every non-string input, and satisfies the concrete
examples of the spec. -/
theorem C6_sanitize_correct :
    (∀ s : String, ∃ a b : List Char,
        s.data = a ++ ((sanitize_input (JVal.str s)).data ++ b) ∧
        (∀ c ∈ a, isPySpace c = true) ∧ (∀ c ∈ b, isPySpace c = true) ∧
        (∀ c, (sanitize_input (JVal.str s)).data.head? = some c → isPySpace c = false) ∧
        (∀ c, (sanitize_input (JVal.str s)).data.getLast? = some c → isPySpace c = false))
    ∧ (∀ v : JVal, (∀ s, v ≠ JVal.str s) → sanitize_input v = "")
    ∧ sanitize_input (JVal.str " hi ") = "hi"
    ∧ sanitize_input JVal.null = ""
    ∧ sanitize_input (JVal.num 42) = "" := by
  refine ⟨?_, ?_, rfl, rfl, rfl⟩
  · intro s
    obtain ⟨a, b, hd, ha, hb⟩ := pyStrip_decomp s
    exact ⟨a, b, hd, ha, hb, pyStrip_head s, pyStrip_last s⟩
  · intro v hv
    cases v with
    | str s => exact absurd rfl (hv s)
    | num n => rfl
    | bool b => rfl
    | null => rfl
    | arr xs => rfl
    | obj kvs => rfl

/-- Witness for C6: the characterization applied at the concrete input
of the spec example. -/
theorem C6_sanitize_correct_witness :
    ∃ a b : List Char,
      (" hi " : String).data = a ++ ((sanitize_input (JVal.str " hi ")).data ++ b) ∧
      (∀ c ∈ a, isPySpace c = true) ∧ (∀ c ∈ b, isPySpace c = true) ∧
      (∀ c, (sanitize_input (JVal.str " hi ")).data.head? = some c → isPySpace c = false) ∧
      (∀ c, (sanitize_input (JVal.str " hi ")).data.getLast? = some c → isPySpace c = false) :=
  C6_sanitize_correct.1 " hi "

/-- C8: validation is deterministic and stateless — two successive runs
of the sanitizer or of the email validator on the same input return
the same result, as both are pure functions of their argument. -/
theorem C8_validation_deterministic :
    (∀ v : JVal, (runTwice sanitize_input v).1 = (runTwice sanitize_input v).2)
    ∧ (∀ s : String, (runTwice validate_email s).1 = (runTwice validate_email s).2) :=
  ⟨fun _ => rfl, fun _ => rfl⟩

/-- C10: the domain part of the pattern accepts any non-empty sequence
of letters, digits, dots and hyphens before the final dot-TLD, so
consecutive dots and edge hyphens in the domain are accepted. -/
theorem C10_domain_liberal :
    (∀ l d t : List Char,
        l ≠ [] → (∀ c ∈ l, isLocalChar c = true) →
        d ≠ [] → (∀ c ∈ d, isDomainChar c = true) →
        2 ≤ t.length → (∀ c ∈ t, c.isAlpha = true) →
        validate_email (String.mk (l ++ '@' :: (d ++ '.' :: t))) = true)
    ∧ validate_email "a@b..co" = true
    ∧ validate_email "a@-b.co" = true
    ∧ validate_email "a@b-.co" = true := by
  refine ⟨?_, rfl, rfl, rfl⟩
  intro l d t hl hlc hd hdc hlen halpha
  exact (validate_email_iff _).mpr ⟨l, d, t, hl, hlc, hd, hdc, hlen, halpha, Or.inl rfl⟩

/-- Witness for C10: the general statement applied at a domain with a
trailing hyphen. -/
theorem C10_domain_liberal_witness :
    validate_email (String.mk (['a'] ++ '@' :: (['b', '-'] ++ '.' :: ['c', 'o']))) = true :=
  C10_domain_liberal.1 ['a'] ['b', '-'] ['c', 'o'] (by decide) (by decide)
    (by decide) (by decide) (by decide) (by decide)

/-- C1 counterexample: a body that is not valid JSON makes the parse
step raise; the exception is caught by the handler's except clause and
surfaced as 500, not as the MissingFields 400 the claim states. -/
theorem C1_counterexample :
    (contact cfgEx relayOk "2024-01-01 00:00:00"
        (.error { name := "BadRequest",
                  msg := "the browser (or proxy) sent a request that this server could not understand" })).1.status
      = 500
    ∧ (contact cfgEx relayOk "2024-01-01 00:00:00"
        (.error { name := "BadRequest",
                  msg := "the browser (or proxy) sent a request that this server could not understand" })).1.status
      ≠ 400 :=
  ⟨rfl, by decide⟩

/-- C1 (amended): a record payload lacking at least one required key
gets the MissingFields 400 response; but a payload whose parse raised
(body not valid JSON), or a JSON null payload (on which the membership
test raises TypeError), is answered with 500 by the except clause, not
with 400. -/
theorem C1_amended_missing_fields :
    (∀ cfg relay now (kvs : List (String × JVal)),
        required_fields.all (fun f => (kvs.lookup f).isSome) = false →
        contact cfg relay now (.ok (.obj kvs))
          = (resp400 "Missing required fields", emptyTrace))
    ∧ (∀ cfg relay now e, (contact cfg relay now (.error e)).1 = resp500 e
        ∧ (contact cfg relay now (.error e)).1.status = 500)
    ∧ (∀ cfg relay now, (contact cfg relay now (.ok .null)).1.status = 500) := by
  refine ⟨?_, ?_, ?_⟩
  · intro cfg relay now kvs h
    simp [contact, allContains_obj, h]
  · intro cfg relay now e
    exact ⟨rfl, rfl⟩
  · intro cfg relay now
    rfl

/-- Witness for C1: a record with only a name key is answered with the
MissingFields 400 response. -/
theorem C1_amended_missing_fields_witness :
    contact cfgEx relayOk "2024-01-01 00:00:00"
        (.ok (.obj [("name", JVal.str "Jane")]))
      = (resp400 "Missing required fields", emptyTrace) :=
  C1_amended_missing_fields.1 cfgEx relayOk "2024-01-01 00:00:00"
    [("name", JVal.str "Jane")] (by decide)

/-- C5: a record payload with all four keys where at least one value
sanitizes to the empty string is answered with the EmptyFields 400
response — with no assumption on the email value, so the check
precedes the email-format check. -/
theorem C5_empty_fields (cfg : Config) (relay : Relay) (now : String)
    (kvs : List (String × JVal)) (nv ev sv mv : JVal)
    (h1 : kvs.lookup "name" = some nv) (h2 : kvs.lookup "email" = some ev)
    (h3 : kvs.lookup "subject" = some sv) (h4 : kvs.lookup "message" = some mv)
    (hempty : sanitize_input nv = "" ∨ sanitize_input ev = "" ∨
      sanitize_input sv = "" ∨ sanitize_input mv = "") :
    contact cfg relay now (.ok (.obj kvs))
      = ({ body := [("success", JVal.bool false),
                    ("error", JVal.str "All fields must not be empty")],
           status := 400 }, emptyTrace) := by
  have hac := allContains_obj_present kvs nv ev sv mv h1 h2 h3 h4
  have hgf := getFields_obj kvs nv ev sv mv h1 h2 h3 h4
  have hcond : (sanitize_input nv == "" || sanitize_input ev == "" ||
      sanitize_input sv == "" || sanitize_input mv == "") = true := by
    rcases hempty with h | h | h | h <;> simp [h]
  simp [contact, hac, hgf, hcond, resp400]

/-- Witness for C5: scenario 3 (empty name, valid email) and a variant
whose email is also invalid — both get the EmptyFields response, the
second showing the precedence over the email check. -/
theorem C5_empty_fields_witness :
    contact cfgEx relayOk "2024-01-01 00:00:00"
        (.ok (.obj [("name", JVal.str ""), ("email", JVal.str "jane@example.com"),
                    ("subject", JVal.str "Hi"), ("message", JVal.str "Hello")]))
      = ({ body := [("success", JVal.bool false),
                    ("error", JVal.str "All fields must not be empty")],
           status := 400 }, emptyTrace)
    ∧ contact cfgEx relayOk "2024-01-01 00:00:00"
        (.ok (.obj [("name", JVal.str ""), ("email", JVal.str "not-an-email"),
                    ("subject", JVal.str "Hi"), ("message", JVal.str "Hello")]))
      = ({ body := [("success", JVal.bool false),
                    ("error", JVal.str "All fields must not be empty")],
           status := 400 }, emptyTrace) :=
  ⟨C5_empty_fields cfgEx relayOk "2024-01-01 00:00:00" _ _ _ _ _
      rfl rfl rfl rfl (Or.inl rfl),
   C5_empty_fields cfgEx relayOk "2024-01-01 00:00:00" _ _ _ _ _
      rfl rfl rfl rfl (Or.inl rfl)⟩

/-- C4: a payload with all four keys present, non-empty after trimming
and a well-formed email, delivered over a relay on which no step
raises, is answered 200 with the success body, and exactly one message
is transmitted, From and To both the operator address, subject the
prefixed sanitized subject. -/
theorem C4_success (cfg : Config) (relay : Relay) (now : String)
    (kvs : List (String × JVal)) (nv ev sv mv : JVal)
    (h1 : kvs.lookup "name" = some nv) (h2 : kvs.lookup "email" = some ev)
    (h3 : kvs.lookup "subject" = some sv) (h4 : kvs.lookup "message" = some mv)
    (h5 : sanitize_input nv ≠ "") (h6 : sanitize_input ev ≠ "")
    (h7 : sanitize_input sv ≠ "") (h8 : sanitize_input mv ≠ "")
    (h9 : validate_email (sanitize_input ev) = true)
    (h10 : relayFirstErr relay = none) :
    (contact cfg relay now (.ok (.obj kvs))).1
      = { body := [("success", JVal.bool true),
                   ("message", JVal.str "Email sent successfully")], status := 200 }
    ∧ ∃ m, (contact cfg relay now (.ok (.obj kvs))).2.sent = [m]
        ∧ m.From = cfg.SENDER_EMAIL ∧ m.To = cfg.SENDER_EMAIL
        ∧ m.Subject = "Portfolio Contact: " ++ sanitize_input sv := by
  have hac := allContains_obj_present kvs nv ev sv mv h1 h2 h3 h4
  have hgf := getFields_obj kvs nv ev sv mv h1 h2 h3 h4
  have hpath := contact_valid_path cfg relay now (.obj kvs) nv ev sv mv hac hgf h5 h6 h7 h8 h9
  rw [hpath, deliver_ok relay _ h10]
  exact ⟨rfl, ⟨_, rfl, rfl, rfl, rfl⟩⟩

/-- Witness for C4: end-to-end scenario 1 with the Jane payload over
the all-success relay stub. -/
theorem C4_success_witness :
    (contact cfgEx relayOk "2024-01-01 00:00:00" (.ok janePayload)).1
      = { body := [("success", JVal.bool true),
                   ("message", JVal.str "Email sent successfully")], status := 200 }
    ∧ ∃ m, (contact cfgEx relayOk "2024-01-01 00:00:00" (.ok janePayload)).2.sent = [m]
        ∧ m.From = cfgEx.SENDER_EMAIL ∧ m.To = cfgEx.SENDER_EMAIL
        ∧ m.Subject = "Portfolio Contact: " ++ sanitize_input (JVal.str "Hi") :=
  C4_success cfgEx relayOk "2024-01-01 00:00:00" _ _ _ _ _
    rfl rfl rfl rfl (by decide) (by decide) (by decide) (by decide) rfl rfl

/-- C3 counterexample: on a rejected authentication the error string of
the 500 body is prefixed with an extra Error-marker, so the body is not
exactly failure-kind, dash, detail as the claim states. -/
theorem C3_counterexample :
    (contact cfgEx relayAuthReject "2024-01-01 00:00:00" (.ok janePayload)).1.status = 500
    ∧ (contact cfgEx relayAuthReject "2024-01-01 00:00:00"
          (.ok janePayload)).1.body.lookup "error"
        = some (JVal.str "Error: SMTPAuthenticationError - bad credentials")
    ∧ "Error: SMTPAuthenticationError - bad credentials"
        ≠ "SMTPAuthenticationError - bad credentials" :=
  ⟨rfl, rfl, by decide⟩

/-- C3 (amended): when a validated submission fails at any delivery
step, the handler returns 500 with body success false and error the
string Error-prefix, exception kind, dash, detail; nothing is
transmitted and at most one connection is attempted (no retry). -/
theorem C3_amended_delivery_failure (cfg : Config) (relay : Relay) (now : String)
    (kvs : List (String × JVal)) (nv ev sv mv : JVal) (exc : PyExc)
    (h1 : kvs.lookup "name" = some nv) (h2 : kvs.lookup "email" = some ev)
    (h3 : kvs.lookup "subject" = some sv) (h4 : kvs.lookup "message" = some mv)
    (h5 : sanitize_input nv ≠ "") (h6 : sanitize_input ev ≠ "")
    (h7 : sanitize_input sv ≠ "") (h8 : sanitize_input mv ≠ "")
    (h9 : validate_email (sanitize_input ev) = true)
    (h10 : relayFirstErr relay = some exc) :
    (contact cfg relay now (.ok (.obj kvs))).1
      = { body := [("success", JVal.bool false),
                   ("error", JVal.str ("Error: " ++ exc.name ++ " - " ++ exc.msg))],
          status := 500 }
    ∧ (contact cfg relay now (.ok (.obj kvs))).2.sent = []
    ∧ (contact cfg relay now (.ok (.obj kvs))).2.connectAttempts ≤ 1 := by
  have hac := allContains_obj_present kvs nv ev sv mv h1 h2 h3 h4
  have hgf := getFields_obj kvs nv ev sv mv h1 h2 h3 h4
  have hpath := contact_valid_path cfg relay now (.obj kvs) nv ev sv mv hac hgf h5 h6 h7 h8 h9
  obtain ⟨he, hsent, hatt⟩ := deliver_err relay (composeMsg cfg now (sanitize_input nv)
    (sanitize_input ev) (sanitize_input sv) (sanitize_input mv)) exc h10
  rcases hdel : deliver relay (composeMsg cfg now (sanitize_input nv) (sanitize_input ev)
      (sanitize_input sv) (sanitize_input mv)) with ⟨res, tr⟩
  rw [hdel] at he hsent hatt
  dsimp only at he hsent hatt
  subst he
  rw [hpath, hdel]
  refine ⟨rfl, hsent, ?_⟩
  rw [hatt]

/-- Witness for C3: end-to-end scenario 2, the Jane payload over the
relay stub that rejects the login credentials. -/
theorem C3_amended_delivery_failure_witness :
    (contact cfgEx relayAuthReject "2024-01-01 00:00:00" (.ok janePayload)).1
      = { body := [("success", JVal.bool false),
                   ("error", JVal.str ("Error: " ++ "SMTPAuthenticationError"
                      ++ " - " ++ "bad credentials"))],
          status := 500 }
    ∧ (contact cfgEx relayAuthReject "2024-01-01 00:00:00" (.ok janePayload)).2.sent = []
    ∧ (contact cfgEx relayAuthReject "2024-01-01 00:00:00"
        (.ok janePayload)).2.connectAttempts ≤ 1 :=
  C3_amended_delivery_failure cfgEx relayAuthReject "2024-01-01 00:00:00" _ _ _ _ _
    { name := "SMTPAuthenticationError", msg := "bad credentials" }
    rfl rfl rfl rfl (by decide) (by decide) (by decide) (by decide) rfl rfl

/-- C7: every execution of the handler closes exactly as many relay
sessions as it opens — on the success path and on every exceptional
path alike, no session is left open. -/
theorem C7_session_closed (cfg : Config) (relay : Relay) (now : String)
    (parsed : Except PyExc JVal) :
    (contact cfg relay now parsed).2.closed = (contact cfg relay now parsed).2.opened := by
  rcases contact_trace_cases cfg relay now parsed with h | ⟨m, h⟩
  · rw [h]
    rfl
  · rw [h]
    exact deliver_closed_eq_opened relay m

/-- C9: every response of the handler carries a boolean success field
that is true exactly when the status is 200; the status is always one
of 200, 400, 500; the 200 response carries the confirmation message;
and every non-200 response carries a non-empty error string. -/
theorem C9_response_invariant (cfg : Config) (relay : Relay) (now : String)
    (parsed : Except PyExc JVal) :
    ((contact cfg relay now parsed).1.body.lookup "success"
        = some (JVal.bool ((contact cfg relay now parsed).1.status == 200)))
    ∧ ((contact cfg relay now parsed).1.status = 200 ∨
       (contact cfg relay now parsed).1.status = 400 ∨
       (contact cfg relay now parsed).1.status = 500)
    ∧ ((contact cfg relay now parsed).1.status = 200 →
        (contact cfg relay now parsed).1.body.lookup "message"
          = some (JVal.str "Email sent successfully"))
    ∧ ((contact cfg relay now parsed).1.status ≠ 200 →
        ∃ s, (contact cfg relay now parsed).1.body.lookup "error" = some (JVal.str s)
          ∧ s ≠ "") := by
  rcases contact_resp_cases cfg relay now parsed with ⟨e, h⟩ | h | h | h | h <;> rw [h]
  · exact ⟨rfl, Or.inr (Or.inr rfl), fun hs => by simp [resp500] at hs,
      fun _ => ⟨_, rfl, errString_ne_empty e⟩⟩
  · exact ⟨rfl, Or.inr (Or.inl rfl), fun hs => absurd hs (by decide),
      fun _ => ⟨"Missing required fields", rfl, by decide⟩⟩
  · exact ⟨rfl, Or.inr (Or.inl rfl), fun hs => absurd hs (by decide),
      fun _ => ⟨"All fields must not be empty", rfl, by decide⟩⟩
  · exact ⟨rfl, Or.inr (Or.inl rfl), fun hs => absurd hs (by decide),
      fun _ => ⟨"Invalid email format", rfl, by decide⟩⟩
  · exact ⟨rfl, Or.inl rfl, fun _ => rfl, fun hs => absurd rfl hs⟩

/-- Witness for C9: a record with no keys is answered with a non-200
status carrying a non-empty error string. -/
theorem C9_response_invariant_witness :
    ∃ s, (contact cfgEx relayOk "2024-01-01 00:00:00"
        (.ok (.obj []))).1.body.lookup "error" = some (JVal.str s) ∧ s ≠ "" :=
  (C9_response_invariant cfgEx relayOk "2024-01-01 00:00:00" (.ok (.obj []))).2.2.2
    (by decide)
